import Mathlib

namespace SandboxTranslate

/-! Shallow embedding of the live transcription pipeline of the
sandbox-translate repository: the transcript store (src/lib/state.ts),
the streaming provider client (AssemblyAIClient), the recognizer event
handlers and the audio-source acquisition logic (src/components/Sidebar.tsx),
and the forwarding bridge to the AI session. -/

/-! ### String helpers mirroring the JavaScript primitives used by the code -/

/-- Mirrors JavaScript String.prototype.toLowerCase for the ASCII keywords
used by the topic rules. -/
def toLowerCase (s : String) : String := String.mk (s.data.map Char.toLower)

/-- True when the pattern occurs at the head of the list. -/
def matchesAt : List Char → List Char → Bool
  | [], _ => true
  | _ :: _, [] => false
  | p :: ps, c :: cs => p == c && matchesAt ps cs

/-- True when the pattern occurs somewhere in the list. -/
def occursIn (pat : List Char) : List Char → Bool
  | [] => matchesAt pat []
  | c :: cs => matchesAt pat (c :: cs) || occursIn pat cs

/-- Mirrors JavaScript String.prototype.includes. -/
def includes (s pat : String) : Bool := occursIn pat.data s.data

/-! ### Transcript store (src/lib/state.ts, useTranscriptionStore) -/

/-- Embeds the TranscriptEntry interface of src/lib/state.ts. -/
structure TranscriptEntry where
  id : String
  text : String
  isFinal : Bool
  timestamp : String
  topic : Option String
  language : String
  speaker : String
deriving DecidableEq

/-- Embeds detectTopic of src/lib/state.ts: four keyword groups checked in
order, case-insensitive substring match, first match wins. -/
def detectTopic (text : String) : Option String :=
  let lower := toLowerCase text
  if includes lower "zoom" || includes lower "meet" || includes lower "call" || includes lower "join" then
    some "Coordination"
  else if includes lower "code" || includes lower "function" || includes lower "bug" || includes lower "api" then
    some "Development"
  else if includes lower "price" || includes lower "cost" || includes lower "buy" || includes lower "sell" then
    some "Business"
  else if includes lower "hello" || includes lower "hi " || includes lower "bye" then
    some "Casual"
  else
    none

/-- The record literal built at the top of addEntry in src/lib/state.ts.
The random id and the wall-clock timestamp are environment inputs and are
passed in explicitly. -/
def mkEntry (text : String) (isFinal : Bool) (lang : String) (speaker : String)
    (newId : String) (now : String) : TranscriptEntry :=
  { id := newId
    text := text
    isFinal := isFinal
    timestamp := now
    topic := if isFinal then detectTopic text else none
    language := lang
    speaker := speaker }

/-- Embeds addEntry of src/lib/state.ts: if the last entry exists and is not
final it is replaced in place by the new entry, otherwise the new entry is
appended. -/
def addEntry (text : String) (isFinal : Bool) (lang : String) (speaker : String)
    (newId : String) (now : String) (entries : List TranscriptEntry) :
    List TranscriptEntry :=
  let newEntry := mkEntry text isFinal lang speaker newId now
  match entries.getLast? with
  | some lastEntry =>
    if lastEntry.isFinal = false then entries.dropLast ++ [newEntry]
    else entries ++ [newEntry]
  | none => entries ++ [newEntry]

/-- Embeds updateLastEntry of src/lib/state.ts: when the log is empty the
state is returned unchanged, otherwise the last entry gets the new text and
a freshly recomputed topic. -/
def updateLastEntry (text : String) (entries : List TranscriptEntry) :
    List TranscriptEntry :=
  match entries.getLast? with
  | none => entries
  | some last =>
    entries.dropLast ++ [{ last with text := text, topic := detectTopic text }]

/-- The operations of the transcript store that mutate the entry list. -/
inductive StoreOp where
  | add (text : String) (isFinal : Bool) (lang : String) (speaker : String)
      (newId : String) (now : String)
  | clear
deriving DecidableEq

/-- One store operation applied to the entry list; clearEntries resets to
the empty list. -/
def applyOp (entries : List TranscriptEntry) : StoreOp → List TranscriptEntry
  | .add t f l sp i n => addEntry t f l sp i n entries
  | .clear => []

/-- The entry list produced by a sequence of store operations starting from
the initial empty log. -/
def runOps (ops : List StoreOp) : List TranscriptEntry :=
  ops.foldl applyOp []

/-- The invariant: every entry other than the last one is final. -/
def allButLastFinal (es : List TranscriptEntry) : Prop :=
  ∀ e ∈ es.dropLast, e.isFinal = true

/-! ### Topic rules as stated by the specification, for the refinement in C4 -/

/-- Modelled from the spec: the fixed ordered keyword-category rule list of
section 4.3, used only to compare against detectTopic from the source. -/
def topicRules : List (List String × String) :=
  [ (["zoom", "meet", "call", "join"], "Coordination"),
    (["code", "function", "bug", "api"], "Development"),
    (["price", "cost", "buy", "sell"], "Business"),
    (["hello", "hi ", "bye"], "Casual") ]

/-- A rule matches when one of its keywords occurs in the lowercased text. -/
def ruleMatches (lower : String) (r : List String × String) : Bool :=
  r.1.any (fun k => includes lower k)

/-- First matching rule wins; no match yields none. -/
def firstMatch (lower : String) : List (List String × String) → Option String
  | [] => none
  | r :: rs => if ruleMatches lower r then some r.2 else firstMatch lower rs

/-- Modelled from the spec: topic classification as an ordered first-match
scan over topicRules. -/
def detectTopicSpec (text : String) : Option String :=
  firstMatch (toLowerCase text) topicRules

/-! ### Streaming provider client (AssemblyAIClient, src/unnamed/part_000,
first revision, the one the claims cite) -/

/-- The readyState of the browser WebSocket owned by the client. -/
inductive ReadyState where
  | connecting
  | open
  | closed
deriving DecidableEq

/-- Outbound socket messages sent by the client. -/
inductive OutMsg where
  | audioData (b64 : String)
  | terminateSession
deriving DecidableEq

/-- The connection parameters encoded in the socket URL by connect:
sample_rate, token and speaker_labels are always present, language_code is
appended only when the lang argument is truthy and different from auto. -/
structure ConnParams where
  sampleRate : Nat
  token : String
  speakerLabels : Bool
  languageCode : Option String
deriving DecidableEq

/-- Embeds the URL construction of AssemblyAIClient.connect: the guard on
the language parameter is the JavaScript condition lang and lang not equal
to the string auto, where an absent or empty string is falsy. -/
def connParams (sampleRate : Nat) (token : String) (lang : Option String) :
    ConnParams :=
  { sampleRate := sampleRate
    token := token
    speakerLabels := true
    languageCode :=
      match lang with
      | some l => if l ≠ "" ∧ l ≠ "auto" then some l else none
      | none => none }

/-- Observable state of the AssemblyAIClient: the socket field, the
isConnected flag, whether the audio recorder relay is active, how many
WebSocket constructions have happened, the messages sent and the events
emitted. -/
structure ClientState where
  socket : Option ReadyState
  isConnected : Bool
  audioActive : Bool
  socketsOpened : Nat
  sent : List OutMsg
  events : List String
deriving DecidableEq

/-- The state of a freshly constructed AssemblyAIClient. -/
def initClient : ClientState :=
  { socket := none, isConnected := false, audioActive := false,
    socketsOpened := 0, sent := [], events := [] }

/-- Embeds AssemblyAIClient.connect up to socket construction: if
isConnected the call returns immediately; otherwise a new WebSocket is
constructed in the connecting state and stored in the socket field. -/
def clientConnect (s : ClientState) : ClientState :=
  if s.isConnected then s
  else
    { s with socket := some ReadyState.connecting,
             socketsOpened := s.socketsOpened + 1 }

/-- Embeds the socket onopen handler: sets isConnected, emits open and
starts the audio relay. -/
def clientOnOpen (s : ClientState) : ClientState :=
  { s with socket := some ReadyState.open,
           isConnected := true,
           events := s.events ++ ["open"],
           audioActive := true }

/-- Embeds the socket onclose handler: clears isConnected, emits close and
stops the audio relay. -/
def clientOnClose (s : ClientState) : ClientState :=
  { s with socket := some ReadyState.closed,
           isConnected := false,
           events := s.events ++ ["close"],
           audioActive := false }

/-- Embeds AssemblyAIClient.disconnect: when a socket exists and is open, a
terminate_session message is sent and the socket is closed; the socket
field is always cleared; the audio relay is stopped and isConnected is
cleared unconditionally. -/
def clientDisconnect (s : ClientState) : ClientState :=
  let s1 :=
    match s.socket with
    | some rs =>
      if rs = ReadyState.open then
        { s with sent := s.sent ++ [OutMsg.terminateSession], socket := none }
      else { s with socket := none }
    | none => s
  { s1 with audioActive := false, isConnected := false }

/-- An inbound socket message as parsed by the onmessage handler. -/
structure InMsg where
  messageType : String
  text : String
  speaker : Option String
deriving DecidableEq

/-- A transcript event emitted to subscribers. -/
structure TranscriptEvent where
  text : String
  isFinal : Bool
  speaker : String
deriving DecidableEq

/-- Embeds the onmessage handler of AssemblyAIClient.connect: the speaker
defaults to the empty string; FinalTranscript and PartialTranscript are
surfaced as transcript events, SessionBegins and every other message type
produce no event. -/
def handleMessage (m : InMsg) : Option TranscriptEvent :=
  let speaker := m.speaker.getD ""
  if m.messageType = "FinalTranscript" then
    some { text := m.text, isFinal := true, speaker := speaker }
  else if m.messageType = "PartialTranscript" then
    some { text := m.text, isFinal := false, speaker := speaker }
  else
    none

/-! ### Forwarding bridge to the AI session (src/components/Sidebar.tsx,
transcript handler, and useUI of src/lib/state.ts) -/

/-- The bridge state visible to the forwarding code: the isProcessing flag
of the useUI store and the list of texts sent to the live client. -/
structure BridgeState where
  isProcessing : Bool
  sends : List String
deriving DecidableEq

/-- Embeds the final-transcript forwarding of the Sidebar transcript
handler: when the live client is connected the text is sent immediately and
setProcessing true is called; otherwise nothing happens. The isProcessing
flag is not consulted. -/
def forwardFinal (connected : Bool) (text : String) (s : BridgeState) :
    BridgeState :=
  if connected then { isProcessing := true, sends := s.sends ++ [text] }
  else s

/-! ### Local recognizer event handlers (src/components/Sidebar.tsx,
recognition.onerror and recognition.onend) -/

/-- The transcription provider selector of the store. -/
inductive Provider where
  | webSpeech
  | assemblyAi
deriving DecidableEq

/-- The state read and written by the recognizer handlers: the listening
flag and provider of the transcription store, the number of restarts issued
by onend, and the errors that reached the console. -/
structure RecState where
  isListening : Bool
  provider : Provider
  restarts : Nat
  errorsLogged : List String
deriving DecidableEq

/-- Events delivered to the recognizer handlers. -/
inductive RecEv where
  | errorEv (kind : String)
  | endEv
deriving DecidableEq

/-- Embeds recognition.onerror and recognition.onend of the Sidebar: a
no-speech error returns immediately; any other error is logged and a
not-allowed error additionally stops listening; a spontaneous end restarts
recognition exactly when the store still says listening and the provider is
still web_speech. -/
def recStep (s : RecState) : RecEv → RecState
  | .errorEv kind =>
    if kind = "no-speech" then s
    else
      let s1 := { s with errorsLogged := s.errorsLogged ++ [kind] }
      if kind = "not-allowed" then { s1 with isListening := false } else s1
  | .endEv =>
    if s.isListening ∧ s.provider = Provider.webSpeech then
      { s with restarts := s.restarts + 1 }
    else s

/-! ### Audio source acquisition (src/components/Sidebar.tsx,
toggleRecording, start branch) -/

/-- The kind of a media track. -/
inductive TrackKind where
  | audio
  | video
deriving DecidableEq

/-- A media track, identified by a number so stopping can be observed. -/
structure Track where
  kind : TrackKind
  tid : Nat
deriving DecidableEq

/-- The media acquisition calls the start path can make. -/
inductive CaptureAttempt where
  | displayCapture
  | userMediaExact (deviceId : String)
deriving DecidableEq

/-- The observable outcome of the start branch of toggleRecording. -/
structure StartResult where
  attempts : List CaptureAttempt
  stoppedTracks : List Track
  isListening : Bool
  connectCalled : Bool
  connectStream : Option (List Track)
deriving DecidableEq

/-- Embeds the start branch of toggleRecording for the assembly_ai
provider. For the system source: a stream captured from the in-page audio
element is used directly when available; otherwise a display capture is
prompted, whose granted tracks (or cancellation, modelled as none) are an
input. When the display capture carries no audio track, every granted track
is stopped, listening is reset and the attempt ends without any further
acquisition; when audio tracks are present the video tracks are stopped
and the client is connected with exactly the audio tracks. For a device
source, a constrained user-media capture is attempted and on failure the
client is connected without a stream. -/
def toggleStartCapture (audioSource : String) (domStream : Option (List Track))
    (displayGrant : Option (List Track)) (micGrant : Option (List Track)) :
    StartResult :=
  if audioSource = "system" then
    match domStream with
    | some s =>
      { attempts := [], stoppedTracks := [], isListening := true,
        connectCalled := true, connectStream := some s }
    | none =>
      match displayGrant with
      | none =>
        { attempts := [CaptureAttempt.displayCapture], stoppedTracks := [],
          isListening := false, connectCalled := false, connectStream := none }
      | some dm =>
        let audioTracks := dm.filter (fun t => t.kind = TrackKind.audio)
        if audioTracks.length > 0 then
          { attempts := [CaptureAttempt.displayCapture],
            stoppedTracks := dm.filter (fun t => t.kind = TrackKind.video),
            isListening := true, connectCalled := true,
            connectStream := some audioTracks }
        else
          { attempts := [CaptureAttempt.displayCapture],
            stoppedTracks := dm, isListening := false,
            connectCalled := false, connectStream := none }
  else
    match micGrant with
    | some ms =>
      { attempts := [CaptureAttempt.userMediaExact audioSource],
        stoppedTracks := [], isListening := true, connectCalled := true,
        connectStream := some ms }
    | none =>
      { attempts := [CaptureAttempt.userMediaExact audioSource],
        stoppedTracks := [], isListening := true, connectCalled := true,
        connectStream := none }

/-! ## Helper lemmas -/

/-- addEntry preserves the invariant that every entry before the last one
is final. -/
theorem addEntry_keeps_inv (t : String) (f : Bool) (l sp i n : String)
    (es : List TranscriptEntry) (h : allButLastFinal es) :
    allButLastFinal (addEntry t f l sp i n es) := by
  rcases List.eq_nil_or_concat es with rfl | ⟨fs, a, rfl⟩
  · intro e he
    simp [addEntry] at he
  · rw [List.concat_eq_append] at h ⊢
    intro e he
    simp only [addEntry, List.getLast?_concat, List.dropLast_concat] at he
    by_cases hf : a.isFinal = false
    · rw [if_pos hf, List.dropLast_concat] at he
      exact h e (by rw [List.dropLast_concat]; exact he)
    · rw [if_neg hf, List.dropLast_concat] at he
      rcases List.mem_append.mp he with hmem | hmem
      · exact h e (by rw [List.dropLast_concat]; exact hmem)
      · have : e = a := by simpa using hmem
        subst this
        exact Bool.eq_true_of_not_eq_false hf

/-- Folding any sequence of store operations preserves the invariant. -/
theorem foldl_keeps_inv (ops : List StoreOp) :
    ∀ es, allButLastFinal es → allButLastFinal (ops.foldl applyOp es) := by
  induction ops with
  | nil => intro es h; simpa using h
  | cons op rest ih =>
    intro es h
    rw [List.foldl_cons]
    apply ih
    cases op with
    | add t f l sp i n => exact addEntry_keeps_inv t f l sp i n es h
    | clear => intro e he; simp [applyOp] at he

/-- Every reachable transcript log satisfies the invariant. -/
theorem runOps_inv (ops : List StoreOp) : allButLastFinal (runOps ops) :=
  foldl_keeps_inv ops [] (by intro e he; simp at he)

/-- An element with at least one successor belongs to dropLast. -/
theorem mem_dropLast_of_get? :
    ∀ (l : List TranscriptEntry) (i : Nat) (e : TranscriptEntry),
      i + 1 < l.length → l.get? i = some e → e ∈ l.dropLast := by
  intro l
  induction l with
  | nil => intro i e h hg; simp at hg
  | cons a as ih =>
    intro i e hlen hget
    cases as with
    | nil => simp at hlen
    | cons b bs =>
      cases i with
      | zero =>
        have : e = a := by simpa using hget.symm
        subst this
        simp [List.dropLast]
      | succ j =>
        have hget2 : (b :: bs).get? j = some e := by simpa using hget
        have hlen2 : j + 1 < (b :: bs).length := by
          simp at hlen ⊢; omega
        have hmem := ih j e hlen2 hget2
        simp [List.dropLast]
        right
        simpa [List.dropLast] using hmem

/-- The source detectTopic coincides with the spec-ordered first-match scan
over the rule table. -/
theorem detect_eq_spec (t : String) : detectTopic t = detectTopicSpec t := by
  simp only [detectTopic, detectTopicSpec, firstMatch, topicRules, ruleMatches,
    List.any_cons, List.any_nil, Bool.or_false, Bool.or_assoc]

/-- Once listening is false, a recognizer event neither restarts
recognition nor resumes listening. -/
theorem recStep_stopped (s : RecState) (e : RecEv) (h : s.isListening = false) :
    (recStep s e).restarts = s.restarts ∧ (recStep s e).isListening = false := by
  cases e with
  | errorEv kind =>
    by_cases h1 : kind = "no-speech" <;> by_cases h2 : kind = "not-allowed" <;>
      simp [recStep, h1, h2, h]
  | endEv => simp [recStep, h]

/-- Once listening is false, no sequence of recognizer events restarts
recognition or resumes listening. -/
theorem recSteps_stopped (evs : List RecEv) :
    ∀ s : RecState, s.isListening = false →
      (evs.foldl recStep s).restarts = s.restarts ∧
      (evs.foldl recStep s).isListening = false := by
  induction evs with
  | nil => intro s h; exact ⟨rfl, h⟩
  | cons e rest ih =>
    intro s h
    rw [List.foldl_cons]
    have h1 := recStep_stopped s e h
    have h2 := ih (recStep s e) h1.2
    exact ⟨h2.1.trans h1.1, h2.2⟩

/-! ## Claim theorems -/

/-- Claim C1: addEntry replaces the last entry in place when it is
non-final, regardless of the finality of the new entry, and appends when
the log is empty or its last entry is final; the four-step ingest trace of
the claim yields the texts Hello there and Next, with finality true then
false and topic Casual on the first entry. -/
theorem addEntry_merge_policy :
    (∀ t f l sp i n (es : List TranscriptEntry) last,
      es.getLast? = some last → last.isFinal = false →
      addEntry t f l sp i n es = es.dropLast ++ [mkEntry t f l sp i n]) ∧
    (∀ t f l sp i n (es : List TranscriptEntry) last,
      es.getLast? = some last → last.isFinal = true →
      addEntry t f l sp i n es = es ++ [mkEntry t f l sp i n]) ∧
    (∀ t f l sp i n, addEntry t f l sp i n [] = [mkEntry t f l sp i n]) ∧
    ((runOps [StoreOp.add "Hel" false "auto" "You" "id1" "t1",
              StoreOp.add "Hello" false "auto" "You" "id2" "t2",
              StoreOp.add "Hello there" true "auto" "You" "id3" "t3",
              StoreOp.add "Next" false "auto" "You" "id4" "t4"]).map
        (fun e => (e.text, e.isFinal, e.topic)) =
      [("Hello there", true, some "Casual"),
       ("Next", false, (none : Option String))]) := by
  refine ⟨?_, ?_, ?_, ?_⟩
  · intro t f l sp i n es last hl hf
    simp [addEntry, hl, hf]
  · intro t f l sp i n es last hl hf
    simp [addEntry, hl, hf]
  · intro t f l sp i n
    simp [addEntry]
  · decide

/-- Witness for claim C1: a non-final tail entry is replaced in place by a
new non-final entry at a concrete input. -/
theorem addEntry_merge_policy_witness :
    addEntry "Hello" false "auto" "You" "id2" "t2"
        [mkEntry "Hel" false "auto" "You" "id1" "t1"] =
      [mkEntry "Hello" false "auto" "You" "id2" "t2"] := by
  have h := addEntry_merge_policy.1 "Hello" false "auto" "You" "id2" "t2"
    [mkEntry "Hel" false "auto" "You" "id1" "t1"]
    (mkEntry "Hel" false "auto" "You" "id1" "t1") (by decide) (by decide)
  simpa using h

/-- Claim C2: for every finite sequence of addEntry and clearEntries calls
starting from the empty log, any entry that has a successor is final, so
the log never holds two consecutive non-final entries, and every non-final
entry is the last entry of the log. -/
theorem transcript_log_invariant (ops : List StoreOp) :
    (∀ i e e2, (runOps ops).get? i = some e →
      (runOps ops).get? (i + 1) = some e2 → e.isFinal = true) ∧
    (∀ i e, (runOps ops).get? i = some e → e.isFinal = false →
      i = (runOps ops).length - 1) := by
  have hinv := runOps_inv ops
  constructor
  · intro i e e2 h1 h2
    have hlen : i + 1 < (runOps ops).length := (List.get?_eq_some.mp h2).1
    exact hinv e (mem_dropLast_of_get? _ i e hlen h1)
  · intro i e h1 hf
    by_contra hne
    have hlt : i < (runOps ops).length := (List.get?_eq_some.mp h1).1
    have hlen : i + 1 < (runOps ops).length := by omega
    have := hinv e (mem_dropLast_of_get? _ i e hlen h1)
    rw [hf] at this
    exact Bool.false_ne_true this

/-- Witness for claim C2: in a concrete two-entry log the entry that has a
successor is final. -/
theorem transcript_log_invariant_witness :
    (runOps [StoreOp.add "Hello" true "auto" "You" "a" "t1",
             StoreOp.add "Next" false "auto" "You" "b" "t2"]).get? 0 =
        some (mkEntry "Hello" true "auto" "You" "a" "t1") ∧
    (mkEntry "Hello" true "auto" "You" "a" "t1").isFinal = true := by
  refine ⟨by decide, ?_⟩
  exact (transcript_log_invariant
      [StoreOp.add "Hello" true "auto" "You" "a" "t1",
       StoreOp.add "Next" false "auto" "You" "b" "t2"]).1 0
    (mkEntry "Hello" true "auto" "You" "a" "t1")
    (mkEntry "Next" false "auto" "You" "b" "t2") (by decide) (by decide)

/-- Counterexample for claim C3: with the session marked processing,
forwarding A and then B produces two immediate sends with A sent first, so
no single pending slot exists, the second text does not replace the first,
and more than one forwarded utterance is in flight. -/
theorem forward_sends_while_processing :
    (forwardFinal true "B" (forwardFinal true "A"
      { isProcessing := true, sends := [] })).sends = ["A", "B"] := by
  decide

/-- Claim C3 as amended: a finalized utterance forwarded while the live
client is connected is sent immediately and marks the session processing,
regardless of the processing flag; forwarding twice while processing sends
both texts in order; when the client is not connected nothing happens; no
pending slot exists. -/
theorem forward_immediate_send :
    (∀ s text, forwardFinal true text s =
      { isProcessing := true, sends := s.sends ++ [text] }) ∧
    (∀ s text, forwardFinal false text s = s) ∧
    (∀ (s : BridgeState) a b, s.isProcessing = true →
      (forwardFinal true b (forwardFinal true a s)).sends =
        s.sends ++ [a, b]) := by
  refine ⟨?_, ?_, ?_⟩
  · intro s text; rfl
  · intro s text; rfl
  · intro s a b _; simp [forwardFinal]

/-- Witness for the amended claim C3 at a concrete bridge state. -/
theorem forward_immediate_send_witness :
    (forwardFinal true "B" (forwardFinal true "A"
      { isProcessing := true, sends := ["old"] })).sends =
      ["old", "A", "B"] := by
  have h := forward_immediate_send.2.2
    { isProcessing := true, sends := ["old"] } "A" "B" (by decide)
  simpa using h

/-- Claim C4: the entry appended or substituted by addEntry is always its
newly built entry, whose topic is unset when isFinal is false and equals
detectTopic of the text when isFinal is true; and detectTopic coincides
with the ordered first-match scan over the four keyword rule groups
Coordination, Development, Business, Casual. -/
theorem topic_classification :
    (∀ t l sp i n (es : List TranscriptEntry),
      (addEntry t false l sp i n es).getLast? =
        some (mkEntry t false l sp i n)) ∧
    (∀ t l sp i n, (mkEntry t false l sp i n).topic = none) ∧
    (∀ t l sp i n, (mkEntry t true l sp i n).topic = detectTopic t) ∧
    (∀ t, detectTopic t = detectTopicSpec t) := by
  refine ⟨?_, ?_, ?_, detect_eq_spec⟩
  · intro t l sp i n es
    rcases List.eq_nil_or_concat es with rfl | ⟨fs, a, rfl⟩
    · simp [addEntry]
    · rw [List.concat_eq_append]
      by_cases hf : a.isFinal = false
      · simp [addEntry, hf, List.getLast?_concat]
      · simp [addEntry, hf, List.getLast?_concat]
  · intro t l sp i n; rfl
  · intro t l sp i n; rfl

/-- Counterexample for claim C5: right after the first connect call the
client is in the Connecting state with one socket constructed, and a second
connect call in that state constructs a second socket, so re-entrant
connect is not a no-op while Connecting. -/
theorem connect_reentrant_while_connecting :
    (clientConnect initClient).socket = some ReadyState.connecting ∧
    (clientConnect initClient).isConnected = false ∧
    (clientConnect initClient).socketsOpened = 1 ∧
    (clientConnect (clientConnect initClient)).socketsOpened = 2 := by
  decide

/-- Claim C5 as amended: the re-entrancy guard of connect tests only the
isConnected flag, so a second connect while Open is a no-op, while a second
connect while Connecting, where isConnected is still false, constructs a
second socket. -/
theorem connect_reentrancy_guard :
    (∀ s : ClientState, s.isConnected = true → clientConnect s = s) ∧
    (∀ s : ClientState, s.isConnected = false →
      (clientConnect s).socketsOpened = s.socketsOpened + 1 ∧
      (clientConnect s).socket = some ReadyState.connecting) := by
  constructor
  · intro s h; simp [clientConnect, h]
  · intro s h; simp [clientConnect, h]

/-- Witness for the amended claim C5: a second connect after open is a
no-op at a concrete state. -/
theorem connect_reentrancy_guard_witness :
    clientConnect (clientOnOpen (clientConnect initClient)) =
      clientOnOpen (clientConnect initClient) := by
  exact connect_reentrancy_guard.1 (clientOnOpen (clientConnect initClient))
    (by decide)

/-- Claim C6: a no-speech error leaves the recognizer state completely
unchanged, a not-allowed error stops listening, after which no sequence of
error or spontaneous end events ever restarts recognition or resumes
listening, and a spontaneous end while listening is still requested with
the web speech provider triggers exactly one restart. -/
theorem recognizer_error_policy :
    (∀ s : RecState, recStep s (RecEv.errorEv "no-speech") = s) ∧
    (∀ s : RecState,
      (recStep s (RecEv.errorEv "not-allowed")).isListening = false) ∧
    (∀ (s : RecState) (evs : List RecEv), s.isListening = false →
      (evs.foldl recStep s).restarts = s.restarts ∧
      (evs.foldl recStep s).isListening = false) ∧
    (∀ s : RecState, s.isListening = true → s.provider = Provider.webSpeech →
      (recStep s RecEv.endEv).restarts = s.restarts + 1) := by
  refine ⟨?_, ?_, ?_, ?_⟩
  · intro s; rfl
  · intro s; simp [recStep]
  · intro s evs h; exact recSteps_stopped evs s h
  · intro s h1 h2; simp [recStep, h1, h2]

/-- Witness for claim C6: after a not-allowed error two spontaneous end
events cause no restart, while an end event while listening restarts
once. -/
theorem recognizer_error_policy_witness :
    ((([RecEv.endEv, RecEv.endEv].foldl recStep
        (recStep { isListening := true, provider := Provider.webSpeech,
                   restarts := 0, errorsLogged := [] }
          (RecEv.errorEv "not-allowed"))).restarts = 0) ∧
    ((recStep { isListening := true, provider := Provider.webSpeech,
                restarts := 0, errorsLogged := [] } RecEv.endEv).restarts
        = 1)) := by
  constructor
  · have h := (recognizer_error_policy.2.2.1
      (recStep { isListening := true, provider := Provider.webSpeech,
                 restarts := 0, errorsLogged := [] }
        (RecEv.errorEv "not-allowed"))
      [RecEv.endEv, RecEv.endEv] (by decide))
    simpa using h.1
  · exact recognizer_error_policy.2.2.2
      { isListening := true, provider := Provider.webSpeech,
        restarts := 0, errorsLogged := [] } (by decide) (by decide)

/-- Claim C7: for a system-audio request whose display capture carries no
audio track, every granted track is stopped, listening is reset, the
client is never connected and the only acquisition attempt is the display
capture, so no microphone capture ever happens; when audio tracks are
present every incidentally granted video track is stopped and the client
is connected with exactly the audio tracks. -/
theorem system_capture_policy :
    (∀ (mg : Option (List Track)) (dm : List Track),
      dm.filter (fun t => t.kind = TrackKind.audio) = [] →
      (toggleStartCapture "system" none (some dm) mg).stoppedTracks = dm ∧
      (toggleStartCapture "system" none (some dm) mg).isListening = false ∧
      (toggleStartCapture "system" none (some dm) mg).connectCalled = false ∧
      (toggleStartCapture "system" none (some dm) mg).attempts =
        [CaptureAttempt.displayCapture]) ∧
    (∀ (mg : Option (List Track)) (dm : List Track),
      dm.filter (fun t => t.kind = TrackKind.audio) ≠ [] →
      (toggleStartCapture "system" none (some dm) mg).stoppedTracks =
        dm.filter (fun t => t.kind = TrackKind.video) ∧
      (toggleStartCapture "system" none (some dm) mg).connectStream =
        some (dm.filter (fun t => t.kind = TrackKind.audio)) ∧
      (toggleStartCapture "system" none (some dm) mg).attempts =
        [CaptureAttempt.displayCapture]) := by
  constructor
  · intro mg dm h
    simp [toggleStartCapture, h]
  · intro mg dm h
    have hlen : 0 < (dm.filter (fun t => t.kind = TrackKind.audio)).length :=
      List.length_pos.mpr h
    simp [toggleStartCapture, hlen]

/-- Witness for claim C7 at concrete track lists with and without an audio
track. -/
theorem system_capture_policy_witness :
    ((toggleStartCapture "system" none
        (some [{ kind := TrackKind.video, tid := 0 }]) none).stoppedTracks =
      [{ kind := TrackKind.video, tid := 0 }]) ∧
    ((toggleStartCapture "system" none
        (some [{ kind := TrackKind.video, tid := 0 }]) none).attempts =
      [CaptureAttempt.displayCapture]) ∧
    ((toggleStartCapture "system" none
        (some [{ kind := TrackKind.audio, tid := 1 },
               { kind := TrackKind.video, tid := 2 }]) none).stoppedTracks =
      [{ kind := TrackKind.video, tid := 2 }]) := by
  refine ⟨?_, ?_, ?_⟩
  · exact (system_capture_policy.1 none
      [{ kind := TrackKind.video, tid := 0 }] (by decide)).1
  · exact (system_capture_policy.1 none
      [{ kind := TrackKind.video, tid := 0 }] (by decide)).2.2.2
  · have h := (system_capture_policy.2 none
      [{ kind := TrackKind.audio, tid := 1 },
       { kind := TrackKind.video, tid := 2 }] (by decide)).1
    simpa using h

/-- Claim C8: disconnect is idempotent, sends the graceful termination
message exactly when the socket is open, and in every state it clears the
socket field, stops the audio relay and clears the connected flag. -/
theorem disconnect_idempotent_safe :
    (∀ s : ClientState,
      clientDisconnect (clientDisconnect s) = clientDisconnect s) ∧
    (∀ s : ClientState, s.socket = some ReadyState.open →
      (clientDisconnect s).sent = s.sent ++ [OutMsg.terminateSession]) ∧
    (∀ s : ClientState, (clientDisconnect s).audioActive = false ∧
      (clientDisconnect s).isConnected = false ∧
      (clientDisconnect s).socket = none) := by
  refine ⟨?_, ?_, ?_⟩
  · intro s
    cases hs : s.socket with
    | none => simp [clientDisconnect, hs]
    | some rs =>
      by_cases hr : rs = ReadyState.open <;>
        simp [clientDisconnect, hs, hr]
  · intro s hs
    simp [clientDisconnect, hs]
  · intro s
    cases hs : s.socket with
    | none => simp [clientDisconnect, hs]
    | some rs =>
      by_cases hr : rs = ReadyState.open <;>
        simp [clientDisconnect, hs, hr]

/-- Witness for claim C8: disconnecting an open session at a concrete
state sends the termination message. -/
theorem disconnect_idempotent_safe_witness :
    (clientDisconnect (clientOnOpen (clientConnect initClient))).sent =
      [OutMsg.terminateSession] := by
  have h := disconnect_idempotent_safe.2.1
    (clientOnOpen (clientConnect initClient)) (by decide)
  simpa using h

/-- Counterexample for claim C9: the empty string is a provided language
different from auto, yet the connection parameters omit the language code,
because the guard in the source also tests JavaScript truthiness. -/
theorem language_code_empty_string :
    (connParams 16000 "tok" (some "")).languageCode = none ∧
    ("" : String) ≠ "auto" := by
  decide

/-- Claim C9 as amended: the connection parameters always carry the sample
rate, the token and the diarization request, and the language code is
included exactly when a language is provided, non-empty and different from
auto; inbound messages surface as transcript events exactly for the
FinalTranscript and PartialTranscript message types, with the
corresponding finality, and every other message type produces no event. -/
theorem connection_params_and_messages :
    (∀ sr tok lang, (connParams sr tok lang).sampleRate = sr ∧
      (connParams sr tok lang).token = tok ∧
      (connParams sr tok lang).speakerLabels = true) ∧
    (∀ sr tok l, (connParams sr tok (some l)).languageCode = some l ↔
      l ≠ "" ∧ l ≠ "auto") ∧
    (∀ sr tok, (connParams sr tok none).languageCode = none) ∧
    (∀ m : InMsg, m.messageType = "FinalTranscript" →
      handleMessage m = some { text := m.text, isFinal := true,
                               speaker := m.speaker.getD "" }) ∧
    (∀ m : InMsg, m.messageType = "PartialTranscript" →
      handleMessage m = some { text := m.text, isFinal := false,
                               speaker := m.speaker.getD "" }) ∧
    (∀ m : InMsg, m.messageType ≠ "FinalTranscript" →
      m.messageType ≠ "PartialTranscript" → handleMessage m = none) := by
  refine ⟨?_, ?_, ?_, ?_, ?_, ?_⟩
  · intro sr tok lang; exact ⟨rfl, rfl, rfl⟩
  · intro sr tok l
    by_cases h : l ≠ "" ∧ l ≠ "auto" <;> simp [connParams, h]
  · intro sr tok; rfl
  · intro m h; simp [handleMessage, h]
  · intro m h1
    by_cases h0 : m.messageType = "FinalTranscript"
    · exact absurd (h0.symm.trans h1) (by decide)
    · simp [handleMessage, h0, h1]
  · intro m h1 h2; simp [handleMessage, h1, h2]

/-- Witness for the amended claim C9: a concrete FinalTranscript message
surfaces as a final transcript event carrying its speaker tag. -/
theorem connection_params_and_messages_witness :
    handleMessage { messageType := "FinalTranscript", text := "hi there",
                    speaker := some "1" } =
      some { text := "hi there", isFinal := true, speaker := "1" } := by
  have h := connection_params_and_messages.2.2.2.1
    { messageType := "FinalTranscript", text := "hi there",
      speaker := some "1" } (by decide)
  simpa using h

/-- Claim C10: updateLastEntry on a non-empty log overwrites the text of
the last entry and recomputes its topic from the keyword rules even when
that entry is final, and on an empty log it changes nothing. -/
theorem updateLastEntry_spec :
    (∀ t, updateLastEntry t [] = []) ∧
    (∀ t (es : List TranscriptEntry) last, es.getLast? = some last →
      updateLastEntry t es =
        es.dropLast ++ [{ last with text := t, topic := detectTopic t }]) := by
  constructor
  · intro t; rfl
  · intro t es last hl
    simp [updateLastEntry, hl]

/-- Witness for claim C10: updating a concrete final entry rewrites its
text and moves its topic from Casual to Business. -/
theorem updateLastEntry_spec_witness :
    updateLastEntry "the price" [mkEntry "hello" true "auto" "You" "a" "t1"] =
      [{ mkEntry "hello" true "auto" "You" "a" "t1" with
          text := "the price", topic := some "Business" }] ∧
    (mkEntry "hello" true "auto" "You" "a" "t1").isFinal = true ∧
    (mkEntry "hello" true "auto" "You" "a" "t1").topic = some "Casual" := by
  refine ⟨?_, by decide, by decide⟩
  have h := updateLastEntry_spec.2 "the price"
    [mkEntry "hello" true "auto" "You" "a" "t1"]
    (mkEntry "hello" true "auto" "You" "a" "t1") (by decide)
  rw [h]
  decide

end SandboxTranslate
